import Mathlib

/-!
Verification of the toggl-mcp tool server (src/index.ts).

The development shallowly embeds the pure logic of the server:
the week-window computation and aggregation of `TogglClient.getWeeklyEntries`,
the rounding arithmetic, the zod argument validation, the text rendering of
the `toggl_weekly` / `toggl_last_week` handlers, the `toggl_today` duration
summation, the `toggl_stop` control flow with its remote-call trace, and the
dispatcher's error translation.

Modelling conventions:
* A calendar day is an integer day number (days since the Unix epoch);
  1970-01-01 was a Thursday, so JavaScript `Date.getDay` of day `n` is
  `(n + 4) mod 7` (0 = Sunday .. 6 = Saturday).  Times of day are
  milliseconds within the day.  Local time is idealized (no DST).
* JavaScript numbers produced by the code are modelled by `Int`/`Nat`/`Rat`
  as appropriate; the `NaN` produced by `Math.abs(undefined)` in the
  `toggl_today` handler is modelled by `none` in an `Option`-valued sum.
* A thrown JavaScript exception is modelled by `Except.error`.
-/

namespace TogglMcp

/-- Time entry record as consumed by the server (fields the code reads).
`duration` is negative for a running entry; optional fields model
`undefined` in the raw JSON. -/
structure TimeEntry where
  id : Int := 0
  description : Option String := none
  start : Option String := none
  duration : Option Int := none
  project_name : Option String := none
deriving Repr, DecidableEq

/-- JavaScript `Date.getDay` on an epoch-day number: 0 = Sunday .. 6 = Saturday
(day 0, 1970-01-01, was a Thursday). -/
def jsGetDay (day : Int) : Int := (day + 4) % 7

/-- Line 123 of src/index.ts: `dayOfWeek === 0 ? -6 : 1 - dayOfWeek`. -/
def daysToMonday (dayOfWeek : Int) : Int :=
  if dayOfWeek = 0 then -6 else 1 - dayOfWeek

/-- The `[monday, sunday]` query window computed by `getWeeklyEntries`
(lines 119-131): a start day with a millisecond-of-day and an end day with a
millisecond-of-day. -/
structure WeekWindow where
  startDay : Int
  startMsOfDay : Nat
  endDay : Int
  endMsOfDay : Nat
deriving Repr, DecidableEq

/-- Lines 121-131 of src/index.ts: `monday` is today shifted to the most
recent Monday plus `weekOffset * 7` days at 00:00:00.000; `sunday` is
`monday + 6` days at 23:59:59.999. -/
def weekWindow (todayDay weekOffset : Int) : WeekWindow :=
  let dayOfWeek := jsGetDay todayDay
  let monday := todayDay + daysToMonday dayOfWeek + weekOffset * 7
  { startDay := monday
    startMsOfDay := 0
    endDay := monday + 6
    endMsOfDay := 86399999 }

/-- Absolute start instant of a window, in milliseconds since the epoch. -/
def WeekWindow.startMs (w : WeekWindow) : Int :=
  w.startDay * 86400000 + w.startMsOfDay

/-- Absolute end instant of a window, in milliseconds since the epoch. -/
def WeekWindow.endMs (w : WeekWindow) : Int :=
  w.endDay * 86400000 + w.endMsOfDay

/-- JavaScript `Math.round` on an exact rational: round half toward
positive infinity, i.e. the floor of the argument plus one half. -/
def jsMathRound (q : ℚ) : ℤ := ⌊q + 1/2⌋

/-- Lines 156, 159, 165 of src/index.ts:
`Math.round(seconds / 3600 * 100) / 100`. -/
def roundHours (seconds : ℕ) : ℚ :=
  (jsMathRound ((seconds : ℚ) / 3600 * 100) : ℚ) / 100

/-- Modelled from the spec: rounding to 2 decimal places by
round-half-away-from-zero on `seconds/3600*100` then dividing by 100
(section 4.1, Rounding).  Used only to compare against `roundHours`. -/
def specRoundHalfAway (q : ℚ) : ℤ :=
  if 0 ≤ q then ⌊q + 1/2⌋ else -⌊-q + 1/2⌋

/-- Line 141 of src/index.ts: `Math.abs(entry.duration || 0)`; an absent
duration is falsy and becomes 0. -/
def entryDuration (e : TimeEntry) : ℕ := (e.duration.getD 0).natAbs

/-- Characters of a string up to (excluding) the first capital T. -/
def takeBeforeT : List Char → List Char
  | [] => []
  | c :: rest => if c = 'T' then [] else c :: takeBeforeT rest

/-- Line 145 of src/index.ts: `entry.start.split("T")[0]`, the date part of
the ISO start timestamp. -/
def entryDate (st : String) : String := String.mk (takeBeforeT st.data)

/-- Lines 149 of src/index.ts: `entry.project_name || "No Project"`; an
absent or empty name is falsy. -/
def entryProjectName (e : TimeEntry) : String :=
  match e.project_name with
  | some p => if p = "" then "No Project" else p
  | none => "No Project"

/-- Line 389 of src/index.ts: `e.description || "No description"`. -/
def entryDescription (e : TimeEntry) : String :=
  match e.description with
  | some s => if s = "" then "No description" else s
  | none => "No description"

/-- The accumulator update `totals[key] = (totals[key] || 0) + v` on a
JavaScript object, which keeps keys in first-insertion order. -/
def bump : List (String × ℕ) → String → ℕ → List (String × ℕ)
  | [], k, v => [(k, v)]
  | (k2, v2) :: rest, k, v =>
      if k2 = k then (k2, v2 + v) :: rest else (k2, v2) :: bump rest k v

/-- Running state of the aggregation loop at lines 136-151 of src/index.ts:
`totalSeconds`, `dailyTotals` and `projectTotals`. -/
structure Agg where
  totalSeconds : ℕ
  dailyTotals : List (String × ℕ)
  projectTotals : List (String × ℕ)
deriving Repr, DecidableEq

/-- One iteration of the loop at lines 140-151 of src/index.ts.  Reading
`entry.start.split` on an entry without `start` throws a TypeError, modelled
as `Except.error`; the throw aborts the whole aggregation. -/
def aggStep (acc : Agg) (e : TimeEntry) : Except String Agg :=
  let duration := entryDuration e
  match e.start with
  | none => Except.error "Cannot read properties of undefined (reading split)"
  | some st =>
      Except.ok
        { totalSeconds := acc.totalSeconds + duration
          dailyTotals := bump acc.dailyTotals (entryDate st) duration
          projectTotals := bump acc.projectTotals (entryProjectName e) duration }

/-- The aggregation loop from a given accumulator state. -/
def aggregateFrom (acc : Agg) : List TimeEntry → Except String Agg
  | [] => Except.ok acc
  | e :: rest =>
      match aggStep acc e with
      | Except.error msg => Except.error msg
      | Except.ok acc2 => aggregateFrom acc2 rest

/-- Lines 136-151 of src/index.ts: the whole aggregation loop started from
zero totals and empty buckets. -/
def aggregateEntries (entries : List TimeEntry) : Except String Agg :=
  aggregateFrom { totalSeconds := 0, dailyTotals := [], projectTotals := [] } entries

/-- Stable insertion of one element: `x` goes after every earlier element
`y` with `le y x`. -/
def insertSorted (le : α → α → Bool) (x : α) : List α → List α
  | [] => [x]
  | y :: rest => if le y x then y :: insertSorted le x rest else x :: y :: rest

/-- Stable insertion sort, modelling JavaScript `Array.prototype.sort`
(required to be stable). -/
def sortBy (le : α → α → Bool) : List α → List α
  | [] => []
  | x :: rest => insertSorted le x (sortBy le rest)

/-- Decimal rendering of a JavaScript number that is an exact multiple of
0.01 (the only numbers the summaries contain): integers print with no
decimal point and trailing zeros of the fraction are dropped, as in
JavaScript number-to-string conversion. -/
def ratToJsString (q : ℚ) : String :=
  let cents : ℤ := q.num * (100 / (q.den : ℤ))
  let sign := if cents < 0 then "-" else ""
  let a := cents.natAbs
  let ip := a / 100
  let fp := a % 100
  if fp = 0 then sign ++ toString ip
  else if fp % 10 = 0 then sign ++ toString ip ++ "." ++ toString (fp / 10)
  else if fp < 10 then sign ++ toString ip ++ ".0" ++ toString fp
  else sign ++ toString ip ++ "." ++ toString fp

/-- The stringified form of a `[key, value]` pair, as JavaScript default
`sort()` compares elements after converting them to strings. -/
def jsPairKey (p : String × ℚ) : String := p.1 ++ "," ++ ratToJsString p.2

/-- Comparator of the daily-breakdown `.sort()` (line 160 of src/index.ts):
default lexicographic order on stringified `[date, hours]` pairs. -/
def dailySortLe (a b : String × ℚ) : Bool := decide (jsPairKey a ≤ jsPairKey b)

/-- Comparator of the project-breakdown sort (line 167 of src/index.ts):
`(a, b) => b[1] - a[1]`, i.e. descending hours; `a` may stay before `b`
when the comparator is nonpositive. -/
def projSortLe (a b : String × ℚ) : Bool := decide (b.2 ≤ a.2)

/-- Conversion from an epoch-day number to a `(year, month, day)` civil
date, proleptic Gregorian (the classic era-based algorithm). -/
def civilFromDays (day : ℤ) : ℤ × ℕ × ℕ :=
  let z := day + 719468
  let era := z / 146097
  let doe := (z - era * 146097).toNat
  let yoe := (doe - doe / 1460 + doe / 36524 - doe / 146096) / 365
  let y := (yoe : ℤ) + era * 400
  let doy := doe - (365 * yoe + yoe / 4 - yoe / 100)
  let mp := (5 * doy + 2) / 153
  let d := doy - (153 * mp + 2) / 5 + 1
  let m := if mp < 10 then mp + 3 else mp - 9
  (if m ≤ 2 then y + 1 else y, m, d)

/-- Two-digit zero-padded decimal rendering. -/
def pad2 (n : ℕ) : String := if n < 10 then "0" ++ toString n else toString n

/-- The date part of `Date.toISOString` for a day number:
`toISOString().split("T")[0]` (lines 154-155 of src/index.ts). -/
def isoDate (day : ℤ) : String :=
  let c := civilFromDays day
  toString c.1 ++ "-" ++ pad2 c.2.1 ++ "-" ++ pad2 c.2.2

/-- The object returned by `getWeeklyEntries` (lines 153-171 of
src/index.ts). -/
structure WeeklySummary where
  week_starting : String
  week_ending : String
  total_hours : ℚ
  daily_breakdown : List (String × ℚ)
  project_breakdown : List (String × ℚ)
  entry_count : ℕ
  entries : List TimeEntry
deriving Repr, DecidableEq

/-- Lines 153-171 of src/index.ts: building the summary object from the
window and the accumulated totals; each bucket is converted by
`Math.round(seconds / 3600 * 100) / 100` and the two breakdowns are
sorted. -/
def mkSummary (w : WeekWindow) (entries : List TimeEntry) (agg : Agg) : WeeklySummary :=
  { week_starting := isoDate w.startDay
    week_ending := isoDate w.endDay
    total_hours := roundHours agg.totalSeconds
    daily_breakdown :=
      sortBy dailySortLe (agg.dailyTotals.map (fun p => (p.1, roundHours p.2)))
    project_breakdown :=
      sortBy projSortLe (agg.projectTotals.map (fun p => (p.1, roundHours p.2)))
    entry_count := entries.length
    entries := entries }

/-- `TogglClient.getWeeklyEntries` (lines 119-172 of src/index.ts) given the
epoch-day of today, the week offset, and the entries the remote service
returns for the window. -/
def getWeeklyEntries (todayDay weekOffset : ℤ) (entries : List TimeEntry) :
    Except String WeeklySummary :=
  (aggregateEntries entries).map (mkSummary (weekWindow todayDay weekOffset) entries)

/-- Sum of the numeric values of a seconds bucket list. -/
def valsSum (l : List (String × ℕ)) : ℕ := (l.map Prod.snd).sum

/-- Sum of the numeric values of an hours bucket list. -/
def hoursSum (l : List (String × ℚ)) : ℚ := (l.map Prod.snd).sum

/-- Sum of the (guarded, absolute) durations of a list of entries. -/
def durSum (es : List TimeEntry) : ℕ := (es.map entryDuration).sum

/-- Hours/minutes decomposition used by the stop, current and today
handlers (lines 322-323, 350-351, 381-388 of src/index.ts):
`Math.floor(duration / 3600)` and `Math.floor((duration % 3600) / 60)`. -/
def fmtHM (d : ℕ) : ℕ × ℕ := (d / 3600, d % 3600 / 60)

/-- The `{h}h {m}m` template of the stop, current and today handlers. -/
def hmText (d : ℕ) : String :=
  toString (fmtHM d).1 ++ "h " ++ toString (fmtHM d).2 ++ "m"

/-- Lines 468-471 of src/index.ts: the per-entry duration string of the
weekly text, `{h}h {m}m` with the minute part dropped when zero and the
hour part dropped when the duration is under an hour. -/
def entryTimeStr (d : ℕ) : String :=
  let h := d / 3600
  let m := d % 3600 / 60
  if h > 0 then toString h ++ "h" ++ (if m > 0 then " " ++ toString m ++ "m" else "")
  else toString m ++ "m"

/-- Line 460 of src/index.ts: `e.start && e.start.startsWith(date)`; an
absent or empty `start` is falsy. -/
def dayEntryFilter (date : String) (e : TimeEntry) : Bool :=
  match e.start with
  | some s => (!(s == "")) && s.startsWith date
  | none => false

/-- Lines 466-472 of src/index.ts: one nested entry line of the weekly
daily breakdown. -/
def renderDayEntryLine (e : TimeEntry) : String :=
  "    • " ++ entryDescription e ++ " (" ++ entryTimeStr (entryDuration e) ++ ")"

/-- Lines 456-476 of src/index.ts: one date line of the daily breakdown
together with its nested entry lines. -/
def renderDailyLine (entries : List TimeEntry) (p : String × ℚ) : String :=
  let base := "  " ++ p.1 ++ ": " ++ ratToJsString p.2 ++ "h\n"
  let dayEntries := entries.filter (dayEntryFilter p.1)
  if dayEntries.isEmpty then base
  else base ++ String.intercalate "\n" (dayEntries.map renderDayEntryLine) ++ "\n"

/-- Lines 454-478 of src/index.ts: the whole daily-breakdown section
(empty when there are no daily buckets). -/
def renderDailySection (s : WeeklySummary) : String :=
  if s.daily_breakdown.isEmpty then ""
  else "Daily Breakdown:\n"
    ++ String.join (s.daily_breakdown.map (renderDailyLine s.entries)) ++ "\n"

/-- Lines 480-485 of src/index.ts: the project-breakdown section. -/
def renderProjectSection (s : WeeklySummary) : String :=
  if s.project_breakdown.isEmpty then ""
  else "Project Breakdown:\n"
    ++ String.join (s.project_breakdown.map
        (fun p => "  " ++ p.1 ++ ": " ++ ratToJsString p.2 ++ "h\n"))

/-- Line 449 of src/index.ts: the week label of the `toggl_weekly` header. -/
def weekLabelOf (weekOffset : ℤ) : String :=
  if weekOffset = 0 then "Current"
  else if weekOffset = -1 then "Last"
  else toString weekOffset.natAbs ++ " weeks ago"

/-- Lines 451-487 of src/index.ts: the success text of `toggl_weekly`. -/
def renderWeeklyText (weekOffset : ℤ) (s : WeeklySummary) : String :=
  weekLabelOf weekOffset ++ " Week Summary (" ++ s.week_starting ++ " to "
    ++ s.week_ending ++ ")\n"
  ++ "Total: " ++ ratToJsString s.total_hours ++ " hours\n\n"
  ++ renderDailySection s
  ++ renderProjectSection s
  ++ "\nTotal entries: " ++ toString s.entry_count

/-- Lines 502-538 of src/index.ts: the success text of `toggl_last_week`, a
verbatim copy of the weekly rendering with a fixed `Last` header. -/
def renderLastWeekText (s : WeeklySummary) : String :=
  "Last Week Summary (" ++ s.week_starting ++ " to " ++ s.week_ending ++ ")\n"
  ++ "Total: " ++ ratToJsString s.total_hours ++ " hours\n\n"
  ++ renderDailySection s
  ++ renderProjectSection s
  ++ "\nTotal entries: " ++ toString s.entry_count

/-- A JSON-like argument value, as zod sees the tool arguments. -/
inductive JVal where
  | str (s : String)
  | num (n : ℤ)
  | bool (b : Bool)
  | null
deriving Repr, DecidableEq

/-- Zod validation of `StartTimerSchema` (lines 175-178 of src/index.ts):
`description` a required string, `project_name` an optional string; a
non-strict `z.object` ignores unrecognized keys. -/
def parseStartTimer (args : List (String × JVal)) :
    Except (List String) (String × Option String) :=
  match args.lookup "description" with
  | some (JVal.str d) =>
      match args.lookup "project_name" with
      | none => Except.ok (d, none)
      | some (JVal.str p) => Except.ok (d, some p)
      | some _ => Except.error ["Expected string, received other type"]
  | some _ => Except.error ["Expected string, received other type"]
  | none => Except.error ["Required"]

/-- Zod validation of `DeleteEntrySchema` (lines 180-182 of src/index.ts):
`entry_id` a required number; unrecognized keys are ignored. -/
def parseDeleteEntry (args : List (String × JVal)) : Except (List String) ℤ :=
  match args.lookup "entry_id" with
  | some (JVal.num n) => Except.ok n
  | some _ => Except.error ["Expected number, received other type"]
  | none => Except.error ["Required"]

/-- Zod validation of `WeeklyEntriesSchema` (lines 184-186 of src/index.ts):
`week_offset` an optional number defaulting to 0. -/
def parseWeeklyEntries (args : List (String × JVal)) : Except (List String) ℤ :=
  match args.lookup "week_offset" with
  | none => Except.ok 0
  | some (JVal.num n) => Except.ok n
  | some _ => Except.error ["Expected number, received other type"]

/-- The exception raised inside a tool handler, before the dispatcher
translates it: a zod validation failure, an HTTP failure with a status, or
a plain JavaScript error with a message. -/
inductive JsError where
  | zodErr (msgs : List String)
  | httpErr (status : ℕ) (msg : String)
  | jsError (msg : String)
deriving Repr, DecidableEq

/-- The coarse protocol error kinds used by the dispatcher. -/
inductive ErrCode where
  | invalidParams
  | invalidRequest
  | internalError
  | methodNotFound
deriving Repr, DecidableEq

/-- Lines 556-575 of src/index.ts: the catch-all translation of a handler
exception into a protocol error. -/
def errorToMcp : JsError → ErrCode × String
  | JsError.zodErr msgs =>
      (ErrCode.invalidParams, "Invalid parameters: " ++ String.intercalate ", " msgs)
  | JsError.httpErr 401 _ =>
      (ErrCode.invalidRequest,
        "Invalid Toggl API key. Check your TOGGL_API_KEY environment variable.")
  | JsError.httpErr _ msg =>
      (ErrCode.internalError, if msg = "" then "An unexpected error occurred" else msg)
  | JsError.jsError msg =>
      (ErrCode.internalError, if msg = "" then "An unexpected error occurred" else msg)

/-- The remote requests a client method can issue. -/
inductive ApiCall where
  | getCurrent
  | getMe
  | patchStop (entryId : ℤ)
deriving Repr, DecidableEq

/-- Lines 41-47 of src/index.ts: `getWorkspaceId` issues a `GET /me` only
when the workspace id is not cached yet. -/
def workspaceIdCalls (cached : Option ℤ) : List ApiCall :=
  match cached with
  | some _ => []
  | none => [ApiCall.getMe]

/-- Lines 69-80 of src/index.ts, `TogglClient.stopTimer`: fetch the current
entry; throw when there is none; otherwise resolve the workspace and patch
the stop endpoint.  The result pairs the returned value (or thrown error)
with the list of remote calls issued. -/
def stopTimer (current : Option TimeEntry) (cachedWorkspace : Option ℤ)
    (stopResponse : TimeEntry) : Except String TimeEntry × List ApiCall :=
  match current with
  | none => (Except.error "No timer is currently running", [ApiCall.getCurrent])
  | some c =>
      (Except.ok stopResponse,
        ApiCall.getCurrent :: workspaceIdCalls cachedWorkspace ++ [ApiCall.patchStop c.id])

/-- Lines 377-379 of src/index.ts: one step of
`entries.reduce((sum, entry) => sum + Math.abs(entry.duration), 0)`.
`Math.abs(undefined)` is `NaN` and `NaN` is absorbing, modelled by
`none`. -/
def jsAddAbsDuration (sum : Option ℤ) (e : TimeEntry) : Option ℤ :=
  match sum, e.duration with
  | some s, some d => some (s + |d|)
  | _, _ => none

/-- The `toggl_today` total (lines 377-379 of src/index.ts): no `|| 0`
guard on `entry.duration`, unlike the weekly aggregation. -/
def todayTotalSeconds (entries : List TimeEntry) : Option ℤ :=
  entries.foldl jsAddAbsDuration (some 0)

/-- Lines 445-497 of src/index.ts, the `toggl_weekly` case: parse the
arguments, run `getWeeklyEntries`, render the text.  A zod failure or a
thrown aggregation error propagates to the dispatcher boundary. -/
def toolWeekly (todayDay : ℤ) (args : List (String × JVal))
    (entries : List TimeEntry) : Except JsError String :=
  match parseWeeklyEntries args with
  | Except.error msgs => Except.error (JsError.zodErr msgs)
  | Except.ok weekOffset =>
      match getWeeklyEntries todayDay weekOffset entries with
      | Except.error msg => Except.error (JsError.jsError msg)
      | Except.ok summary => Except.ok (renderWeeklyText weekOffset summary)

/-- Lines 499-548 of src/index.ts, the `toggl_last_week` case: run
`getWeeklyEntries(-1)` and render the duplicated last-week text. -/
def toolLastWeek (todayDay : ℤ) (entries : List TimeEntry) : Except JsError String :=
  match getWeeklyEntries todayDay (-1) entries with
  | Except.error msg => Except.error (JsError.jsError msg)
  | Except.ok summary => Except.ok (renderLastWeekText summary)

/-- A well-formed 19-second entry on 2024-01-01, used as a concrete test
vector. -/
def sampleEntry : TimeEntry :=
  { id := 1, description := some "write docs", start := some "2024-01-01T09:00:00Z",
    duration := some 19, project_name := none }

/-- The aggregation state the loop reaches on `[sampleEntry]`. -/
def sampleAgg : Agg :=
  { totalSeconds := 19
    dailyTotals := [("2024-01-01", 19)]
    projectTotals := [("No Project", 19)] }

/-- The summary the code produces for `[sampleEntry]` with today = epoch
day 0 and offset 0. -/
def sampleSummary : WeeklySummary := mkSummary (weekWindow 0 0) [sampleEntry] sampleAgg

/-- Four 19-second entries on four distinct days of one week. -/
def fourDayEntries : List TimeEntry :=
  [ { id := 1, start := some "2024-01-01T09:00:00Z", duration := some 19 },
    { id := 2, start := some "2024-01-02T09:00:00Z", duration := some 19 },
    { id := 3, start := some "2024-01-03T09:00:00Z", duration := some 19 },
    { id := 4, start := some "2024-01-04T09:00:00Z", duration := some 19 } ]

/-- The aggregation state the loop reaches on `fourDayEntries`. -/
def fourDayAgg : Agg :=
  { totalSeconds := 76
    dailyTotals :=
      [("2024-01-01", 19), ("2024-01-02", 19), ("2024-01-03", 19), ("2024-01-04", 19)]
    projectTotals := [("No Project", 76)] }

/-- The summary the code produces for `fourDayEntries` with today = epoch
day 0 and offset 0. -/
def fourDaySummary : WeeklySummary := mkSummary (weekWindow 0 0) fourDayEntries fourDayAgg

/-- An entry whose `start` field is absent. -/
def noStartEntry : TimeEntry := { id := 9, duration := some 60 }

/-- A running entry: its duration encodes minus the epoch seconds of its
start instant. -/
def runningEntry : TimeEntry :=
  { id := 7, description := some "deep work", start := some "2024-01-01T09:00:00Z",
    duration := some (-1704099600) }

theorem lookup_none_of_keys_ne :
    ∀ (l : List (String × JVal)) (k : String),
      (∀ p ∈ l, p.1 ≠ k) → List.lookup k l = none := by
  intro l k
  induction l with
  | nil => intro _; rfl
  | cons p t ih =>
      intro h
      obtain ⟨k2, v⟩ := p
      have hk : (k == k2) = false :=
        beq_eq_false_iff_ne.mpr fun e => (h ⟨k2, v⟩ (by simp)) e.symm
      simpa [List.lookup, hk] using ih fun q hq => h q (by simp [hq])

theorem mem_insertSorted {le : α → α → Bool} {x y : α} :
    ∀ {l : List α}, y ∈ insertSorted le x l ↔ y = x ∨ y ∈ l := by
  intro l
  induction l with
  | nil => simp [insertSorted]
  | cons z t ih =>
      by_cases h : le z x = true <;> simp [insertSorted, h, ih] <;> tauto

theorem mem_sortBy {le : α → α → Bool} {y : α} :
    ∀ {l : List α}, y ∈ sortBy le l ↔ y ∈ l := by
  intro l
  induction l with
  | nil => simp [sortBy]
  | cons z t ih => simp [sortBy, mem_insertSorted, ih]

theorem hoursSum_insertSorted (le : (String × ℚ) → (String × ℚ) → Bool)
    (x : String × ℚ) :
    ∀ (l : List (String × ℚ)),
      hoursSum (insertSorted le x l) = x.2 + hoursSum l := by
  intro l
  induction l with
  | nil => simp [insertSorted, hoursSum]
  | cons z t ih =>
      by_cases h : le z x = true <;>
        simp [insertSorted, h, hoursSum] at ih ⊢ <;> linarith

theorem hoursSum_sortBy (le : (String × ℚ) → (String × ℚ) → Bool) :
    ∀ (l : List (String × ℚ)), hoursSum (sortBy le l) = hoursSum l := by
  intro l
  induction l with
  | nil => rfl
  | cons z t ih =>
      show hoursSum (insertSorted le z (sortBy le t)) = hoursSum (z :: t)
      rw [hoursSum_insertSorted, ih]
      show z.2 + hoursSum t = z.2 + hoursSum t
      rfl

theorem length_insertSorted (le : α → α → Bool) (x : α) :
    ∀ (l : List α), (insertSorted le x l).length = l.length + 1 := by
  intro l
  induction l with
  | nil => rfl
  | cons z t ih =>
      by_cases h : le z x = true <;> simp [insertSorted, h, ih]

theorem length_sortBy (le : α → α → Bool) :
    ∀ (l : List α), (sortBy le l).length = l.length := by
  intro l
  induction l with
  | nil => rfl
  | cons z t ih => simp [sortBy, length_insertSorted, ih]

theorem valsSum_bump :
    ∀ (l : List (String × ℕ)) (k : String) (v : ℕ),
      valsSum (bump l k v) = valsSum l + v := by
  intro l k v
  induction l with
  | nil => simp [bump, valsSum]
  | cons p t ih =>
      obtain ⟨k2, v2⟩ := p
      by_cases h : k2 = k <;> simp [bump, h, valsSum] at ih ⊢ <;> omega

theorem aggregateFrom_ok_sums :
    ∀ (es : List TimeEntry) (acc agg : Agg),
      aggregateFrom acc es = Except.ok agg →
      agg.totalSeconds = acc.totalSeconds + durSum es ∧
      valsSum agg.dailyTotals = valsSum acc.dailyTotals + durSum es ∧
      valsSum agg.projectTotals = valsSum acc.projectTotals + durSum es := by
  intro es
  induction es with
  | nil =>
      intro acc agg h
      obtain rfl : acc = agg := by simpa [aggregateFrom] using h
      simp [durSum]
  | cons e rest ih =>
      intro acc agg h
      cases hs : e.start with
      | none => simp [aggregateFrom, aggStep, hs] at h
      | some st =>
          simp only [aggregateFrom, aggStep, hs] at h
          obtain ⟨h1, h2, h3⟩ := ih _ agg h
          refine ⟨?_, ?_, ?_⟩ <;>
            simp [h1, h2, h3, valsSum_bump, durSum] <;> omega

theorem aggregateFrom_isOk_iff :
    ∀ (es : List TimeEntry) (acc : Agg),
      (aggregateFrom acc es).isOk = true ↔ ∀ e ∈ es, e.start ≠ none := by
  intro es
  induction es with
  | nil =>
      intro acc
      constructor
      · intro _ f hf; cases hf
      · intro _; rfl
  | cons e rest ih =>
      intro acc
      cases hs : e.start with
      | none =>
          constructor
          · intro h
            have herr : aggregateFrom acc (e :: rest)
                = Except.error "Cannot read properties of undefined (reading split)" := by
              simp [aggregateFrom, aggStep, hs]
            rw [herr] at h
            exact Bool.noConfusion h
          · intro h; exact absurd hs (h e (by simp))
      | some st =>
          simp only [aggregateFrom, aggStep, hs]
          rw [ih]
          constructor
          · intro h f hf
            rcases List.mem_cons.mp hf with rfl | hmem
            · simp [hs]
            · exact h f hmem
          · intro h f hf; exact h f (by simp [hf])

theorem roundHours_err (s : ℕ) : |roundHours s - (s : ℚ) / 3600| ≤ 1 / 200 := by
  have h1 : (⌊(s : ℚ) / 3600 * 100 + 1/2⌋ : ℚ) ≤ (s : ℚ) / 3600 * 100 + 1/2 :=
    Int.floor_le _
  have h2 : (s : ℚ) / 3600 * 100 + 1/2 - 1 < (⌊(s : ℚ) / 3600 * 100 + 1/2⌋ : ℚ) :=
    Int.sub_one_lt_floor _
  unfold roundHours jsMathRound
  rw [abs_le]
  constructor <;> linarith

theorem sum_roundHours_err :
    ∀ (l : List ℕ),
      |((l.map roundHours).sum : ℚ) - ((l.sum : ℚ)) / 3600|
        ≤ (l.length : ℚ) / 200 := by
  intro l
  induction l with
  | nil => simp
  | cons a t ih =>
      have h1 := roundHours_err a
      have key : roundHours a + ((t.map roundHours).sum : ℚ)
            - (((a : ℕ) + t.sum : ℕ) : ℚ) / 3600
          = (roundHours a - (a : ℚ) / 3600)
            + (((t.map roundHours).sum : ℚ) - ((t.sum : ℚ)) / 3600) := by
        push_cast
        ring
      calc |((((a :: t).map roundHours).sum : ℚ))
            - (((a :: t).sum : ℚ)) / 3600|
          = |(roundHours a - (a : ℚ) / 3600)
              + (((t.map roundHours).sum : ℚ) - ((t.sum : ℚ)) / 3600)| := by
            rw [List.map_cons, List.sum_cons, List.sum_cons, key]
        _ ≤ |roundHours a - (a : ℚ) / 3600|
              + |((t.map roundHours).sum : ℚ) - ((t.sum : ℚ)) / 3600| := abs_add _ _
        _ ≤ 1 / 200 + (t.length : ℚ) / 200 := add_le_add h1 ih
        _ = ((a :: t).length : ℚ) / 200 := by
            rw [List.length_cons]
            push_cast
            ring

theorem hoursSum_map_round (l : List (String × ℕ)) :
    hoursSum (l.map (fun p => (p.1, roundHours p.2)))
      = ((l.map Prod.snd).map roundHours).sum := by
  induction l with
  | nil => rfl
  | cons p t ih =>
      show roundHours p.2 + hoursSum (t.map (fun p => (p.1, roundHours p.2)))
          = roundHours p.2 + ((t.map Prod.snd).map roundHours).sum
      rw [ih]

theorem jsAddAbsDuration_none (e : TimeEntry) : jsAddAbsDuration none e = none := by
  cases e.duration <;> rfl

theorem foldl_jsAdd_none :
    ∀ (es : List TimeEntry), es.foldl jsAddAbsDuration none = none := by
  intro es
  induction es with
  | nil => rfl
  | cons e t ih => simp [jsAddAbsDuration_none, ih]

theorem foldl_jsAdd_all_some :
    ∀ (es : List TimeEntry) (s : ℤ),
      (∀ e ∈ es, e.duration ≠ none) →
      es.foldl jsAddAbsDuration (some s)
        = some (s + (es.map (fun e => |(e.duration.getD 0)|)).sum) := by
  intro es
  induction es with
  | nil => intro s _; simp
  | cons e t ih =>
      intro s h
      cases hd : e.duration with
      | none => exact absurd hd (h e (by simp))
      | some d =>
          have step : jsAddAbsDuration (some s) e = some (s + |d|) := by
            simp [jsAddAbsDuration, hd]
          rw [List.foldl_cons, step, ih (s + |d|) fun f hf => h f (by simp [hf])]
          simp [hd]
          ring

theorem foldl_jsAdd_has_none :
    ∀ (es : List TimeEntry) (s : ℤ),
      (∃ e ∈ es, e.duration = none) →
      es.foldl jsAddAbsDuration (some s) = none := by
  intro es
  induction es with
  | nil => intro s h; simp at h
  | cons e t ih =>
      intro s h
      cases hd : e.duration with
      | none =>
          have step : jsAddAbsDuration (some s) e = none := by
            simp [jsAddAbsDuration, hd]
          rw [List.foldl_cons, step, foldl_jsAdd_none]
      | some d =>
          have step : jsAddAbsDuration (some s) e = some (s + |d|) := by
            simp [jsAddAbsDuration, hd]
          rcases h with ⟨f, hf, hfd⟩
          rcases List.mem_cons.mp hf with rfl | hmem
          · rw [hd] at hfd; cases hfd
          · rw [List.foldl_cons, step]
            exact ih _ ⟨f, hmem, hfd⟩

/-- C1: for every integer week offset and every possible today, the week
window starts on a Monday (JavaScript weekday 1) at 00:00:00.000 and ends
exactly 6 days later at 23:59:59.999. -/
theorem weekWindow_monday_c1 (todayDay weekOffset : Int) :
    jsGetDay (weekWindow todayDay weekOffset).startDay = 1 ∧
    (weekWindow todayDay weekOffset).startMsOfDay = 0 ∧
    (weekWindow todayDay weekOffset).endDay =
      (weekWindow todayDay weekOffset).startDay + 6 ∧
    (weekWindow todayDay weekOffset).endMsOfDay = 86399999 := by
  refine ⟨?_, rfl, rfl, rfl⟩
  by_cases h : (todayDay + 4) % 7 = 0 <;>
    simp only [weekWindow, jsGetDay, daysToMonday, h, if_true, if_false, reduceIte] <;>
    omega

/-- C4: for every fixed today, the offset `-1` window and the offset `0`
window are adjacent, non-overlapping 7-day windows: the earlier window ends
one millisecond before the later Monday begins, and each spans exactly
7 days of milliseconds. -/
theorem weekWindow_adjacent_c4 (todayDay : Int) :
    (weekWindow todayDay (-1)).endMs + 1 = (weekWindow todayDay 0).startMs ∧
    (weekWindow todayDay (-1)).endMs < (weekWindow todayDay 0).startMs ∧
    (weekWindow todayDay (-1)).endMs - (weekWindow todayDay (-1)).startMs + 1
      = 7 * 86400000 ∧
    (weekWindow todayDay 0).endMs - (weekWindow todayDay 0).startMs + 1
      = 7 * 86400000 := by
  by_cases h : (todayDay + 4) % 7 = 0 <;>
    simp only [weekWindow, WeekWindow.endMs, WeekWindow.startMs, jsGetDay,
      daysToMonday, h, if_true, if_false, reduceIte] <;>
    omega

theorem bucket_roundSum_err (le : (String × ℚ) → (String × ℚ) → Bool)
    (L : List (String × ℕ)) :
    |hoursSum (sortBy le (L.map (fun p => (p.1, roundHours p.2))))
        - roundHours (valsSum L)|
      ≤ (((sortBy le (L.map (fun p => (p.1, roundHours p.2)))).length : ℚ) + 1)
          / 200 := by
  have e1 : hoursSum (sortBy le (L.map (fun p => (p.1, roundHours p.2))))
      = ((L.map Prod.snd).map roundHours).sum := by
    rw [hoursSum_sortBy, hoursSum_map_round]
  have e2 : (sortBy le (L.map (fun p => (p.1, roundHours p.2)))).length
      = (L.map Prod.snd).length := by
    rw [length_sortBy, List.length_map, List.length_map]
  have h1 := sum_roundHours_err (L.map Prod.snd)
  have h2 := roundHours_err (L.map Prod.snd).sum
  have e3 : valsSum L = (L.map Prod.snd).sum := rfl
  rw [e1, e2, e3]
  calc |(((L.map Prod.snd).map roundHours).sum : ℚ)
        - roundHours (L.map Prod.snd).sum|
      ≤ |(((L.map Prod.snd).map roundHours).sum : ℚ)
            - (((L.map Prod.snd).sum : ℚ)) / 3600|
        + |(((L.map Prod.snd).sum : ℚ)) / 3600
            - roundHours (L.map Prod.snd).sum| := abs_sub_le _ _ _
    _ ≤ ((L.map Prod.snd).length : ℚ) / 200 + 1 / 200 :=
        add_le_add h1 (by rwa [abs_sub_comm] at h2)
    _ = (((L.map Prod.snd).length : ℚ) + 1) / 200 := by ring

/-- C2: every bucket total and the grand total of a weekly summary are the
seconds total converted by `Math.round(seconds/3600*100)/100`; on the
nonnegative totals the code produces this coincides with
round-half-away-from-zero applied to `seconds/3600*100` then divided by
100, and in particular 3661 seconds gives 1.02 hours and 1800 seconds
gives 0.5 hours. -/
theorem rounding_halfaway_c2 :
    (∀ seconds : ℕ,
        roundHours seconds
          = (specRoundHalfAway ((seconds : ℚ) / 3600 * 100) : ℚ) / 100) ∧
    roundHours 3661 = 102 / 100 ∧
    roundHours 1800 = 1 / 2 ∧
    (∀ (w : WeekWindow) (entries : List TimeEntry) (agg : Agg),
        (mkSummary w entries agg).total_hours = roundHours agg.totalSeconds ∧
        (∀ q ∈ (mkSummary w entries agg).daily_breakdown,
            ∃ sec : ℕ, q.2 = roundHours sec) ∧
        (∀ q ∈ (mkSummary w entries agg).project_breakdown,
            ∃ sec : ℕ, q.2 = roundHours sec)) := by
  refine ⟨?_, ?_, ?_, ?_⟩
  · intro s
    unfold roundHours specRoundHalfAway jsMathRound
    rw [if_pos (by positivity)]
  · norm_num [roundHours, jsMathRound]
  · norm_num [roundHours, jsMathRound]
  · intro w entries agg
    refine ⟨rfl, ?_, ?_⟩ <;>
      · intro q hq
        obtain ⟨p, hp, rfl⟩ := List.mem_map.mp (mem_sortBy.mp hq)
        exact ⟨p.2, rfl⟩

/-- C2 (witness): the conversion shape evaluated on the one-bucket sample
summary. -/
theorem rounding_halfaway_c2_witness :
    ∃ sec : ℕ, (("2024-01-01", roundHours 19) : String × ℚ).2 = roundHours sec :=
  (rounding_halfaway_c2.2.2.2 (weekWindow 0 0) [sampleEntry] sampleAgg).2.1
    ("2024-01-01", roundHours 19) (List.Mem.head _)

/-- C3 (amended): the sum of the per-day hour values of a weekly summary
differs from the total hours by at most `(D + 1) * 0.005` where `D` is the
number of daily buckets, and likewise for the per-project values; the
fixed 0.01 tolerance of the claim holds only for small bucket counts. -/
theorem weekly_sums_c3 (todayDay weekOffset : ℤ) (entries : List TimeEntry)
    (s : WeeklySummary)
    (h : getWeeklyEntries todayDay weekOffset entries = Except.ok s) :
    |hoursSum s.daily_breakdown - s.total_hours|
      ≤ ((s.daily_breakdown.length : ℚ) + 1) / 200 ∧
    |hoursSum s.project_breakdown - s.total_hours|
      ≤ ((s.project_breakdown.length : ℚ) + 1) / 200 := by
  unfold getWeeklyEntries at h
  cases hagg : aggregateEntries entries with
  | error m => rw [hagg] at h; cases h
  | ok agg =>
      rw [hagg] at h
      obtain rfl : mkSummary (weekWindow todayDay weekOffset) entries agg = s := by
        simpa [Except.map] using h
      obtain ⟨ht, hd, hp⟩ := aggregateFrom_ok_sums entries _ agg hagg
      simp only [valsSum] at ht hd hp
      have hdt : agg.totalSeconds = valsSum agg.dailyTotals := by
        simp only [valsSum]
        simp at ht hd
        omega
      have hpt : agg.totalSeconds = valsSum agg.projectTotals := by
        simp only [valsSum]
        simp at ht hp
        omega
      constructor
      · show |hoursSum (sortBy dailySortLe
              (agg.dailyTotals.map (fun p => (p.1, roundHours p.2))))
            - roundHours agg.totalSeconds|
          ≤ (((sortBy dailySortLe
              (agg.dailyTotals.map (fun p => (p.1, roundHours p.2)))).length : ℚ) + 1)
            / 200
        rw [hdt]
        exact bucket_roundSum_err dailySortLe agg.dailyTotals
      · show |hoursSum (sortBy projSortLe
              (agg.projectTotals.map (fun p => (p.1, roundHours p.2))))
            - roundHours agg.totalSeconds|
          ≤ (((sortBy projSortLe
              (agg.projectTotals.map (fun p => (p.1, roundHours p.2)))).length : ℚ) + 1)
            / 200
        rw [hpt]
        exact bucket_roundSum_err projSortLe agg.projectTotals

/-- C3 (witness): the amended bound evaluated on a one-entry week. -/
theorem weekly_sums_c3_witness :
    |hoursSum sampleSummary.daily_breakdown - sampleSummary.total_hours|
      ≤ ((sampleSummary.daily_breakdown.length : ℚ) + 1) / 200 ∧
    |hoursSum sampleSummary.project_breakdown - sampleSummary.total_hours|
      ≤ ((sampleSummary.project_breakdown.length : ℚ) + 1) / 200 :=
  weekly_sums_c3 0 0 [sampleEntry] sampleSummary rfl

/-- C3 (counterexample): four 19-second entries on four distinct days give
per-day hours summing to 0.04 while the total rounds to 0.02, violating
the claimed 0.01 tolerance. -/
theorem weekly_sums_c3_counterexample :
    getWeeklyEntries 0 0 fourDayEntries = Except.ok fourDaySummary ∧
    ¬(|hoursSum fourDaySummary.daily_breakdown - fourDaySummary.total_hours|
        ≤ 1 / 100 ∧
      |hoursSum fourDaySummary.project_breakdown - fourDaySummary.total_hours|
        ≤ 1 / 100) := by
  constructor
  · rfl
  · intro hcl
    have hdle := hcl.1
    have h1 : hoursSum fourDaySummary.daily_breakdown
        = ((([19, 19, 19, 19] : List ℕ).map roundHours).sum : ℚ) := by
      show hoursSum (sortBy dailySortLe
          (fourDayAgg.dailyTotals.map (fun p => (p.1, roundHours p.2)))) = _
      rw [hoursSum_sortBy, hoursSum_map_round]
      rfl
    have h2 : fourDaySummary.total_hours = roundHours 76 := rfl
    rw [h1, h2, abs_le] at hdle
    have h3 := hdle.2
    norm_num [roundHours, jsMathRound] at h3

/-- C5: invoking `toggl_weekly` with `week_offset = -1` produces exactly
the same payload as invoking `toggl_last_week`, for every today and entry
list. -/
theorem last_week_equals_weekly_c5 (todayDay : ℤ) (entries : List TimeEntry) :
    toolWeekly todayDay [("week_offset", JVal.num (-1))] entries
      = toolLastWeek todayDay entries := by
  have hrw : ∀ s, renderWeeklyText (-1) s = renderLastWeekText s := fun s => rfl
  unfold toolWeekly toolLastWeek
  rw [show parseWeeklyEntries [("week_offset", JVal.num (-1))] = Except.ok (-1)
      from rfl]
  show (match getWeeklyEntries todayDay (-1) entries with
      | Except.error msg => Except.error (JsError.jsError msg)
      | Except.ok summary => Except.ok (renderWeeklyText (-1) summary))
    = match getWeeklyEntries todayDay (-1) entries with
      | Except.error msg => Except.error (JsError.jsError msg)
      | Except.ok summary => Except.ok (renderLastWeekText summary)
  cases getWeeklyEntries todayDay (-1) entries with
  | error m => rfl
  | ok s => exact congrArg Except.ok (hrw s)

/-- C6 (counterexample): a week containing an entry whose `start` is absent
makes `getWeeklyEntries` throw a TypeError instead of skipping the entry. -/
theorem weekly_missing_start_c6_counterexample :
    getWeeklyEntries 0 0 [noStartEntry]
      = Except.error "Cannot read properties of undefined (reading split)" := rfl

/-- C6 (amended): the weekly aggregation succeeds exactly when every entry
has a `start`; an entry with absent `start` raises a TypeError from the
aggregation loop.  The defensive exclusion of start-less entries exists
only in the per-day entry listing of the rendered text. -/
theorem weekly_missing_start_c6 :
    (∀ entries : List TimeEntry,
        (aggregateEntries entries).isOk = true ↔ ∀ e ∈ entries, e.start ≠ none) ∧
    (∀ (date : String) (e : TimeEntry), e.start = none →
        dayEntryFilter date e = false) := by
  constructor
  · intro entries
    exact aggregateFrom_isOk_iff entries _
  · intro date e he
    simp [dayEntryFilter, he]

/-- C6 (witness): the amended statement evaluated on concrete entries:
aggregation succeeds on the well-formed sample entry, and the rendering
filter drops the start-less entry. -/
theorem weekly_missing_start_c6_witness :
    (aggregateEntries [sampleEntry]).isOk = true ∧
    dayEntryFilter "2024-01-01" noStartEntry = false :=
  ⟨(weekly_missing_start_c6.1 [sampleEntry]).mpr (by decide),
    weekly_missing_start_c6.2 "2024-01-01" noStartEntry rfl⟩

/-- C7: a stop request with no running entry throws the domain error with
its user-facing message, never issues a request to the stop endpoint, and
the dispatcher surfaces the message as an internal-kind protocol error. -/
theorem stop_no_running_c7 (cached : Option ℤ) (resp : TimeEntry) :
    (stopTimer none cached resp).1
      = Except.error "No timer is currently running" ∧
    (∀ entryId : ℤ, ApiCall.patchStop entryId ∉ (stopTimer none cached resp).2) ∧
    errorToMcp (JsError.jsError "No timer is currently running")
      = (ErrCode.internalError, "No timer is currently running") := by
  refine ⟨rfl, ?_, rfl⟩
  intro entryId
  simp [stopTimer]

/-- C7 (witness): the stop precondition failure evaluated with a cached
workspace id and a concrete entry id. -/
theorem stop_no_running_c7_witness :
    (stopTimer none (some 123) sampleEntry).1
      = Except.error "No timer is currently running" ∧
    ApiCall.patchStop 55 ∉ (stopTimer none (some 123) sampleEntry).2 ∧
    errorToMcp (JsError.jsError "No timer is currently running")
      = (ErrCode.internalError, "No timer is currently running") :=
  ⟨(stop_no_running_c7 (some 123) sampleEntry).1,
    (stop_no_running_c7 (some 123) sampleEntry).2.1 55,
    (stop_no_running_c7 (some 123) sampleEntry).2.2⟩

/-- C8: the today total sums `Math.abs(entry.duration)` over all entries
with no guard: when every duration is present the total is the plain sum of
absolute durations (a running entry contributing its full epoch-magnitude),
and one absent duration makes the whole total NaN. -/
theorem today_total_c8 (entries : List TimeEntry) (hne : entries ≠ []) :
    ((∀ e ∈ entries, e.duration ≠ none) →
        todayTotalSeconds entries
          = some ((entries.map (fun e => |(e.duration.getD 0)|)).sum)) ∧
    ((∃ e ∈ entries, e.duration = none) → todayTotalSeconds entries = none) := by
  constructor
  · intro hall
    have h := foldl_jsAdd_all_some entries 0 hall
    simpa [todayTotalSeconds] using h
  · intro hex
    exact foldl_jsAdd_has_none entries 0 hex

/-- C8 (witness): the total evaluated on a single running entry whose
duration encodes minus the start epoch. -/
theorem today_total_c8_witness :
    todayTotalSeconds [runningEntry]
      = some (([runningEntry].map (fun e => |(e.duration.getD 0)|)).sum) :=
  (today_total_c8 [runningEntry] (by simp)).1 (by decide)

/-- C9: start and delete argument validation succeeds when the required
keys are present with their declared types, and unrecognized extra keys are
silently ignored. -/
theorem extra_keys_ignored_c9 (d p : String) (n : ℤ)
    (extra : List (String × JVal))
    (h : ∀ q ∈ extra,
        q.1 ≠ "description" ∧ q.1 ≠ "project_name" ∧ q.1 ≠ "entry_id") :
    parseStartTimer (("description", JVal.str d) :: extra)
      = Except.ok (d, none) ∧
    parseStartTimer
        (("description", JVal.str d) :: ("project_name", JVal.str p) :: extra)
      = Except.ok (d, some p) ∧
    parseDeleteEntry (("entry_id", JVal.num n) :: extra) = Except.ok n := by
  have hpn : List.lookup "project_name" extra = none :=
    lookup_none_of_keys_ne extra _ fun q hq => (h q hq).2.1
  refine ⟨?_, ?_, ?_⟩
  · unfold parseStartTimer
    simp [List.lookup, hpn]
  · unfold parseStartTimer
    simp [List.lookup]
  · unfold parseDeleteEntry
    simp [List.lookup]

/-- C9 (witness): validation with one extra unrecognized key. -/
theorem extra_keys_ignored_c9_witness :
    parseStartTimer [("description", JVal.str "fix bug"), ("color", JVal.str "red")]
      = Except.ok ("fix bug", none) ∧
    parseStartTimer [("description", JVal.str "fix bug"),
        ("project_name", JVal.str "api"), ("color", JVal.str "red")]
      = Except.ok ("fix bug", some "api") ∧
    parseDeleteEntry [("entry_id", JVal.num 42), ("color", JVal.str "red")]
      = Except.ok 42 :=
  extra_keys_ignored_c9 "fix bug" "api" 42 [("color", JVal.str "red")] (by decide)

/-- C10: the `{h}h {m}m` decomposition used by the stop, current and today
handlers truncates: `h = d / 3600`, `m = (d mod 3600) / 60`, so
`h*3600 + m*60 ≤ d < h*3600 + (m+1)*60`. -/
theorem duration_format_c10 (d : ℕ) :
    (fmtHM d).1 = d / 3600 ∧
    (fmtHM d).2 = d % 3600 / 60 ∧
    (fmtHM d).1 * 3600 + (fmtHM d).2 * 60 ≤ d ∧
    d < (fmtHM d).1 * 3600 + ((fmtHM d).2 + 1) * 60 := by
  refine ⟨rfl, rfl, ?_, ?_⟩ <;>
    · simp only [fmtHM]
      omega

end TogglMcp
